import Mathlib

/-!
Shallow embedding of the handwriting feature-extraction core of the
Neuro-Ink repository: `src/training/01_data_preparation.py` (DataLoader)
and `src/training/02_feature_engineering.py` (FeatureEngineer).

Python dicts that may lack keys are modelled with `Option` fields;
`dict.get(k, d)` becomes `Option.getD`.  Numeric values are rationals,
except where the source takes a square root (`np.sqrt`, `np.std`), which
is modelled with `Real.sqrt` over `ℝ`.  A float division whose divisor is
zero yields a non-finite float (inf/nan) in numpy; this is modelled by
`pyDiv` returning `none` in that case.
-/

/-- A captured point: `{x?, y?, timestamp?, pressure?}` (all keys optional
in the raw dict; `tiltX/tiltY/rotation` are never read by the extractors
and are omitted). -/
structure Point where
  x : Option ℚ
  y : Option ℚ
  timestamp : Option ℚ
  pressure : Option ℚ
deriving DecidableEq, Repr

instance : Inhabited Point := ⟨⟨none, none, none, none⟩⟩

/-- A stroke: `{points?, startTime?, endTime?}`. -/
structure Stroke where
  points : Option (List Point)
  startTime : Option ℚ
  endTime : Option ℚ
deriving DecidableEq, Repr

instance : Inhabited Stroke := ⟨⟨none, none, none⟩⟩

/-- Canvas size dict `{width?, height?}`. -/
structure CanvasSize where
  width : Option ℚ
  height : Option ℚ
deriving DecidableEq, Repr

/-- The `data` sub-dict of a session: `{strokes?, canvasSize?}`. -/
structure SessionData where
  strokes : Option (List Stroke)
  canvasSize : Option CanvasSize
deriving DecidableEq, Repr

/-- A session dict `{id?, testType?, createdAt?, data?}`. -/
structure Session where
  id : Option String
  testType : Option String
  createdAt : Option ℚ
  data : Option SessionData
deriving DecidableEq, Repr

/-- `stroke.get('points', [])`. -/
def strokePoints (s : Stroke) : List Point := s.points.getD []

/-- `np.mean` over a list of rationals (callers guard the empty case). -/
def qMean (l : List ℚ) : ℚ := l.sum / l.length

/-- The variance that `np.std` takes the square root of: the mean of the
squared deviations from the mean. -/
def qVariance (l : List ℚ) : ℚ := qMean (l.map (fun x => (x - qMean l) ^ 2))

/-- `np.std` over a list of rationals: square root of the population
variance. -/
noncomputable def qStd (l : List ℚ) : ℝ := Real.sqrt (qVariance l)

/-- `np.min` over a nonempty list (0 for the empty list, which callers
guard against). -/
def qListMin : List ℚ → ℚ
  | [] => 0
  | x :: xs => xs.foldl min x

/-- `np.max` over a nonempty list (0 for the empty list, which callers
guard against). -/
def qListMax : List ℚ → ℚ
  | [] => 0
  | x :: xs => xs.foldl max x

/-- Float division; `none` models the non-finite float (inf or nan) that
numpy produces when the divisor is 0. -/
def pyDiv (a b : ℚ) : Option ℚ := if b = 0 then none else some (a / b)

/-! ## Temporal features (`FeatureEngineer.compute_temporal_features`) -/

/-- Duration pool: `endTime - startTime` for each stroke having both keys
(others are skipped, not zero-filled). -/
def strokeDurations (strokes : List Stroke) : List ℚ :=
  strokes.filterMap (fun s =>
    match s.startTime, s.endTime with
    | some st, some et => some (et - st)
    | _, _ => none)

/-- The pause recorded for one consecutive stroke pair: present only when
`prev` has `endTime` and `curr` has `startTime`, and clamped below at 0:
`max(0, curr.startTime - prev.endTime)`. -/
def pauseAt (prev curr : Stroke) : Option ℚ :=
  match prev.endTime, curr.startTime with
  | some et, some st => some (max 0 (st - et))
  | _, _ => none

/-- Inter-stroke pause pool: `pauseAt` over consecutive stroke pairs
(`for i in range(1, len(strokes))`). -/
def strokePauses (strokes : List Stroke) : List ℚ :=
  (List.range' 1 (strokes.length - 1)).filterMap (fun i =>
    pauseAt (strokes.getD (i - 1) default) (strokes.getD i default))

/-- `total_pause_time`: sum of the clamped pauses. -/
def total_pause_time (strokes : List Stroke) : ℚ := (strokePauses strokes).sum

/-! ## Pressure features (`FeatureEngineer.compute_pressure_features`) -/

/-- Pressure pool: every point's `pressure` when present; points lacking
it are skipped. -/
def allPressures (strokes : List Stroke) : List ℚ :=
  strokes.flatMap (fun s => (strokePoints s).filterMap (fun p => p.pressure))

/-- `pressure_mean` (0-defaulted when the pool is empty). -/
def pressure_mean (strokes : List Stroke) : ℚ :=
  if allPressures strokes = [] then 0 else qMean (allPressures strokes)

/-- `pressure_std` (0-defaulted when the pool is empty). -/
noncomputable def pressure_std (strokes : List Stroke) : ℝ :=
  if allPressures strokes = [] then 0 else qStd (allPressures strokes)

/-- `pressure_cv = std/mean if mean > 0 else 0` (0-defaulted when the pool
is empty). -/
noncomputable def pressure_cv (strokes : List Stroke) : ℝ :=
  if allPressures strokes = [] then 0
  else if 0 < pressure_mean strokes
    then pressure_std strokes / (pressure_mean strokes : ℝ)
    else 0

/-! ## Kinematic features (`FeatureEngineer.compute_kinematic_features`) -/

/-- `point.get('timestamp', 0)`. -/
def ptTime (p : Point) : ℚ := p.timestamp.getD 0

/-- The clamped time delta `dt = max(1, t1 - t0)`. -/
def dtOf (p0 p1 : Point) : ℚ := max 1 (ptTime p1 - ptTime p0)

/-- Euclidean step distance `np.sqrt(dx**2 + dy**2)` with absent
coordinates defaulting to 0. -/
noncomputable def ptDist (p0 p1 : Point) : ℝ :=
  Real.sqrt (((p1.x.getD 0 - p0.x.getD 0 : ℚ) : ℝ) ^ 2 +
             ((p1.y.getD 0 - p0.y.getD 0 : ℚ) : ℝ) ^ 2)

/-- The per-pair velocity sample `dist / dt if dt > 0 else 0`. -/
noncomputable def velStep (p0 p1 : Point) : ℝ :=
  if 0 < dtOf p0 p1 then ptDist p0 p1 / (dtOf p0 p1 : ℝ) else 0

/-- Velocity samples of one stroke's point list
(`for i in range(1, len(points))`). -/
noncomputable def strokeVelocities (points : List Point) : List ℝ :=
  (List.range' 1 (points.length - 1)).map (fun i =>
    velStep (points.getD (i - 1) default) (points.getD i default))

/-- Step distances of one stroke's point list (pooled as `path_lengths`). -/
noncomputable def strokeDists (points : List Point) : List ℝ :=
  (List.range' 1 (points.length - 1)).map (fun i =>
    ptDist (points.getD (i - 1) default) (points.getD i default))

/-- Acceleration samples of one stroke: derived only when at least two
velocity samples exist; the `dt` reuses the raw point offsets
`points[i+1]`, `points[i]` as the source does. -/
noncomputable def strokeAccels (points : List Point) : List ℝ :=
  let vels := strokeVelocities points
  if 2 ≤ vels.length then
    (List.range' 1 (vels.length - 1)).map (fun i =>
      let dt := max 1 (ptTime (points.getD (i + 1) default) -
                       ptTime (points.getD i default))
      if 0 < dt then (vels.getD i 0 - vels.getD (i - 1) 0) / (dt : ℝ) else 0)
  else []

/-- Jerk samples of one stroke: derived only when at least two
acceleration samples exist; the `dt` reuses the raw point offsets
`points[i+2]`, `points[i+1]` as the source does. -/
noncomputable def strokeJerks (points : List Point) : List ℝ :=
  let accels := strokeAccels points
  if 2 ≤ accels.length then
    (List.range' 1 (accels.length - 1)).map (fun i =>
      let dt := max 1 (ptTime (points.getD (i + 2) default) -
                       ptTime (points.getD (i + 1) default))
      if 0 < dt then (accels.getD i 0 - accels.getD (i - 1) 0) / (dt : ℝ) else 0)
  else []

/-- Pooled velocity samples across the session's strokes; a stroke with
fewer than 2 points contributes nothing (`if len(points) < 2: continue`). -/
noncomputable def allVelocities (strokes : List Stroke) : List ℝ :=
  strokes.flatMap (fun s =>
    if (strokePoints s).length < 2 then [] else strokeVelocities (strokePoints s))

/-- Pooled step distances (`path_lengths`). -/
noncomputable def allDists (strokes : List Stroke) : List ℝ :=
  strokes.flatMap (fun s =>
    if (strokePoints s).length < 2 then [] else strokeDists (strokePoints s))

/-- Pooled acceleration samples. -/
noncomputable def allAccels (strokes : List Stroke) : List ℝ :=
  strokes.flatMap (fun s =>
    if (strokePoints s).length < 2 then [] else strokeAccels (strokePoints s))

/-- Pooled jerk samples. -/
noncomputable def allJerks (strokes : List Stroke) : List ℝ :=
  strokes.flatMap (fun s =>
    if (strokePoints s).length < 2 then [] else strokeJerks (strokePoints s))

/-- `np.mean` over a list of reals (callers guard the empty case). -/
noncomputable def rMean (l : List ℝ) : ℝ := l.sum / l.length

/-- `np.std` over a list of reals. -/
noncomputable def rStd (l : List ℝ) : ℝ :=
  Real.sqrt (rMean (l.map (fun x => (x - rMean l) ^ 2)))

/-- `velocity_mean = np.mean(velocities) if velocities else 0`. -/
noncomputable def velocity_mean (strokes : List Stroke) : ℝ :=
  if allVelocities strokes = [] then 0 else rMean (allVelocities strokes)

/-- `velocity_std = np.std(velocities) if velocities else 0`. -/
noncomputable def velocity_std (strokes : List Stroke) : ℝ :=
  if allVelocities strokes = [] then 0 else rStd (allVelocities strokes)

/-- `path_length_total = sum(path_lengths)`. -/
noncomputable def path_length_total (strokes : List Stroke) : ℝ :=
  (allDists strokes).sum

/-- `path_length_mean = np.mean(path_lengths) if path_lengths else 0`. -/
noncomputable def path_length_mean (strokes : List Stroke) : ℝ :=
  if allDists strokes = [] then 0 else rMean (allDists strokes)

/-! ## Spatial features (`FeatureEngineer.compute_spatial_features`) -/

/-- All (x,y) pairs across all strokes, absent coordinates defaulting
to 0. -/
def allXY (strokes : List Stroke) : List (ℚ × ℚ) :=
  strokes.flatMap (fun s =>
    (strokePoints s).map (fun p => (p.x.getD 0, p.y.getD 0)))

/-- The spatial feature sub-record.  `canvas_coverage` is an `Option`:
`none` models the non-finite float produced by a zero denominator. -/
structure SpatialFeatures where
  bounding_box_width : ℚ
  bounding_box_height : ℚ
  bounding_box_area : ℚ
  canvas_coverage : Option ℚ
  center_offset_x : ℚ
  center_offset_y : ℚ
  center_offset_total : ℝ

/-- `_empty_spatial_features`: the all-zero default sub-record. -/
noncomputable def emptySpatialFeatures : SpatialFeatures :=
  ⟨0, 0, 0, some 0, 0, 0, 0⟩

/-- `compute_spatial_features(strokes, canvas_size)`.  The `canvas_size`
argument is `none` when the Python value is falsy (absent or the empty
dict); `some cs` otherwise. -/
noncomputable def compute_spatial_features (strokes : List Stroke)
    (canvas_size : Option CanvasSize) : SpatialFeatures :=
  if strokes = [] ∨ canvas_size = none then emptySpatialFeatures
  else
    let pts := allXY strokes
    if pts = [] then emptySpatialFeatures
    else
      let cs := canvas_size.getD ⟨none, none⟩
      let xs := pts.map Prod.fst
      let ys := pts.map Prod.snd
      let w := qListMax xs - qListMin xs
      let h := qListMax ys - qListMin ys
      let cx := qMean xs
      let cy := qMean ys
      let ccx := cs.width.getD 0 / 2
      let ccy := cs.height.getD 0 / 2
      { bounding_box_width := w
        bounding_box_height := h
        bounding_box_area := w * h
        canvas_coverage := pyDiv (w * h) (cs.width.getD 1 * cs.height.getD 1)
        center_offset_x := |cx - ccx|
        center_offset_y := |cy - ccy|
        center_offset_total :=
          Real.sqrt (((cx - ccx : ℚ) : ℝ) ^ 2 + ((cy - ccy : ℚ) : ℝ) ^ 2) }

/-! ## Aggregation (`DataLoader` in `01_data_preparation.py`) -/

/-- A feature-record value: a string (for `session_id` / `test_type`) or
a number. -/
inductive FValue where
  | str (s : String)
  | num (x : ℝ)

/-- A feature record: an association list in Python-dict insertion
order. -/
abbrev FeatureRecord := List (String × FValue)

/-- `DataLoader._compute_stroke_features(strokes)`: returns the empty
dict for an empty stroke list; otherwise counts, then duration
statistics when any stroke has both time keys, then pressure statistics
when any point carries pressure. -/
noncomputable def computeStrokeFeatures (strokes : List Stroke) : FeatureRecord :=
  if strokes = [] then []
  else
    let durations := strokeDurations strokes
    let pressures := allPressures strokes
    [("stroke_count", FValue.num (strokes.length : ℝ)),
     ("total_points", FValue.num ((strokes.map (fun s => (strokePoints s).length)).sum : ℝ))]
    ++ (if durations = [] then [] else
        [("stroke_duration_mean", FValue.num (qMean durations : ℝ)),
         ("stroke_duration_std", FValue.num (qStd durations)),
         ("total_drawing_time", FValue.num (durations.sum : ℝ))])
    ++ (if pressures = [] then [] else
        [("pressure_mean", FValue.num (qMean pressures : ℝ)),
         ("pressure_std", FValue.num (qStd pressures)),
         ("pressure_min", FValue.num (qListMin pressures : ℝ)),
         ("pressure_max", FValue.num (qListMax pressures : ℝ))])

/-- `DataLoader.extract_features(session)`: the three metadata entries
with their fallbacks, then — only when `'strokes' in session.get('data', {})`
— the stroke-derived entries. -/
noncomputable def extractFeatures (session : Session) : FeatureRecord :=
  let base : FeatureRecord :=
    [("session_id", FValue.str (session.id.getD "unknown")),
     ("test_type", FValue.str (session.testType.getD "unknown")),
     ("created_at", FValue.num ((session.createdAt.getD 0 : ℚ) : ℝ))]
  match (session.data.getD ⟨none, none⟩).strokes with
  | none => base
  | some strokes => base ++ computeStrokeFeatures strokes

/-- The key list of a session's feature record. -/
noncomputable def featureKeys (session : Session) : List String :=
  (extractFeatures session).map Prod.fst

/-- The `rows` list built by `DataLoader.create_dataset`: one record per
session, in order. -/
noncomputable def createDatasetRows (sessions : List Session) : List FeatureRecord :=
  sessions.map extractFeatures

/-! ## Helper lemmas -/

lemma list_sum_const (l : List ℚ) (p : ℚ) (hall : ∀ q ∈ l, q = p) :
    l.sum = l.length * p := by
  induction l with
  | nil => simp
  | cons a t ih =>
      have ha : a = p := hall a (by simp)
      have ht : t.sum = t.length * p := ih (fun q hq => hall q (by simp [hq]))
      simp [ha, ht]
      ring

lemma qMean_const (l : List ℚ) (p : ℚ) (hne : l ≠ []) (hall : ∀ q ∈ l, q = p) :
    qMean l = p := by
  have hlen : (l.length : ℚ) ≠ 0 := by
    simpa using hne
  unfold qMean
  rw [list_sum_const l p hall]
  field_simp

lemma qVariance_const (l : List ℚ) (p : ℚ) (hne : l ≠ []) (hall : ∀ q ∈ l, q = p) :
    qVariance l = 0 := by
  unfold qVariance
  set m := qMean l with hm
  have hm' : m = p := by rw [hm]; exact qMean_const l p hne hall
  have hmap : ∀ q ∈ l.map (fun x => (x - m) ^ 2), q = 0 := by
    intro q hq
    rcases List.mem_map.mp hq with ⟨x, hx, rfl⟩
    rw [hall x hx, hm']
    ring
  exact qMean_const _ 0 (by simpa using hne) hmap

lemma qStd_const (l : List ℚ) (p : ℚ) (hne : l ≠ []) (hall : ∀ q ∈ l, q = p) :
    qStd l = 0 := by
  unfold qStd
  rw [qVariance_const l p hne hall]
  simp

lemma strokePauses_nonneg (strokes : List Stroke) :
    ∀ q ∈ strokePauses strokes, 0 ≤ q := by
  intro q hq
  rcases List.mem_filterMap.mp hq with ⟨i, _, hi⟩
  unfold pauseAt at hi
  rcases hprev : (strokes.getD (i - 1) default).endTime with _ | et <;>
    rcases hcurr : (strokes.getD i default).startTime with _ | st <;>
      rw [hprev, hcurr] at hi <;> simp at hi
  rw [← hi]
  exact le_max_left 0 _

/-! ## Claim theorems -/

/-- C5: for a consecutive point pair whose timestamps are equal or
decreasing, the kinematic extractor clamps `dt` to 1 and the velocity
sample equals `dist / 1 = dist`; the divisor is never zero. -/
theorem dt_clamp_velocity (p0 p1 : Point) (h : ptTime p1 ≤ ptTime p0) :
    dtOf p0 p1 = 1 ∧ velStep p0 p1 = ptDist p0 p1 := by
  have hdt : dtOf p0 p1 = 1 := by
    unfold dtOf
    exact max_eq_left (by linarith)
  refine ⟨hdt, ?_⟩
  unfold velStep
  rw [hdt]
  norm_num

/-- Witness for C5 at two points sharing timestamp 5. -/
theorem dt_clamp_velocity_witness :
    dtOf ⟨some 0, some 0, some 5, none⟩ ⟨some 3, some 4, some 5, none⟩ = 1 ∧
    velStep ⟨some 0, some 0, some 5, none⟩ ⟨some 3, some 4, some 5, none⟩ =
      ptDist ⟨some 0, some 0, some 5, none⟩ ⟨some 3, some 4, some 5, none⟩ :=
  dt_clamp_velocity _ _ (by norm_num [ptTime])

/-- C6: a consecutive stroke pair with a negative raw gap records a pause
of exactly 0; every recorded pause is nonnegative, and `total_pause_time`
(their sum) is nonnegative. -/
theorem pause_clamping (strokes : List Stroke) (prev curr : Stroke) (et st : ℚ)
    (hprev : prev.endTime = some et) (hcurr : curr.startTime = some st)
    (hneg : st < et) :
    pauseAt prev curr = some 0 ∧
    (∀ q ∈ strokePauses strokes, 0 ≤ q) ∧ 0 ≤ total_pause_time strokes := by
  refine ⟨?_, strokePauses_nonneg strokes, ?_⟩
  · unfold pauseAt
    rw [hprev, hcurr]
    have : max 0 (st - et) = 0 := max_eq_left (by linarith)
    simp [this]
  · exact List.sum_nonneg (strokePauses_nonneg strokes)

/-- Witness for C6: stroke A ends at 500, stroke B starts at 300. -/
theorem pause_clamping_witness :
    pauseAt ⟨some [], some 0, some 500⟩ ⟨some [], some 300, some 600⟩ = some 0 ∧
    (∀ q ∈ strokePauses [⟨some [], some 0, some 500⟩, ⟨some [], some 300, some 600⟩], 0 ≤ q) ∧
    0 ≤ total_pause_time [⟨some [], some 0, some 500⟩, ⟨some [], some 300, some 600⟩] :=
  pause_clamping _ _ _ 500 300 rfl rfl (by norm_num)

/-- C7: when every pooled pressure value equals the same positive
constant, `pressure_std` and `pressure_cv` are both 0 (the coefficient
of variation is guarded by the `mean > 0` test, never NaN). -/
theorem constant_pressure_cv (strokes : List Stroke) (p : ℚ) (hp : 0 < p)
    (hne : allPressures strokes ≠ [])
    (hall : ∀ q ∈ allPressures strokes, q = p) :
    pressure_std strokes = 0 ∧ pressure_cv strokes = 0 := by
  have hstd : pressure_std strokes = 0 := by
    unfold pressure_std
    rw [if_neg hne]
    exact qStd_const _ p hne hall
  refine ⟨hstd, ?_⟩
  unfold pressure_cv
  rw [if_neg hne]
  have hmean : pressure_mean strokes = p := by
    unfold pressure_mean
    rw [if_neg hne]
    exact qMean_const _ p hne hall
  rw [if_pos (by rw [hmean]; exact hp), hstd]
  simp

/-- Witness for C7: two points at constant pressure 0.7. -/
theorem constant_pressure_cv_witness :
    pressure_std [⟨some [⟨some 0, some 0, some 0, some (7/10)⟩,
                         ⟨some 1, some 1, some 10, some (7/10)⟩], some 0, some 10⟩] = 0 ∧
    pressure_cv [⟨some [⟨some 0, some 0, some 0, some (7/10)⟩,
                        ⟨some 1, some 1, some 10, some (7/10)⟩], some 0, some 10⟩] = 0 :=
  constant_pressure_cv _ (7/10) (by norm_num)
    (by simp [allPressures, strokePoints])
    (by simp [allPressures, strokePoints])

/-- C8: batch extraction is the per-session extraction mapped over the
session list: the record for session A is the same whether B is
processed before it, after it, or not at all, and a batch splits into
the concatenation of its parts. -/
theorem batch_purity (A B : Session) (l1 l2 : List Session) :
    createDatasetRows [A] = [extractFeatures A] ∧
    createDatasetRows [A, B] = [extractFeatures A, extractFeatures B] ∧
    createDatasetRows [B, A] = [extractFeatures B, extractFeatures A] ∧
    createDatasetRows (l1 ++ l2) = createDatasetRows l1 ++ createDatasetRows l2 := by
  refine ⟨rfl, rfl, rfl, ?_⟩
  simp [createDatasetRows]

lemma strokeVelocities_length (points : List Point) :
    (strokeVelocities points).length = points.length - 1 := by
  simp [strokeVelocities]

lemma strokeAccels_length_le (points : List Point) :
    (strokeAccels points).length ≤ points.length - 2 := by
  by_cases h : 2 ≤ (strokeVelocities points).length
  · simp only [strokeAccels, if_pos h, List.length_map, List.length_range']
    rw [strokeVelocities_length] at *
    omega
  · simp [strokeAccels, h]

/-- C9: the raw point accesses `points[i+1]` (acceleration loop) and
`points[i+2]` (jerk loop) are in bounds for every index the loops
produce: the guards make every used index lie strictly below the point
count. -/
theorem kinematic_index_bounds (points : List Point) (i : ℕ) :
    (1 ≤ i → i < (strokeVelocities points).length → i + 1 < points.length) ∧
    (1 ≤ i → i < (strokeAccels points).length → i + 2 < points.length) := by
  have hv := strokeVelocities_length points
  have ha := strokeAccels_length_le points
  constructor
  · intro h1 h2
    omega
  · intro h1 h2
    omega

/-- Witness for C9 at a concrete 4-point stroke and loop index 1. -/
theorem kinematic_index_bounds_witness :
    1 + 1 < ([⟨some 0, some 0, some 0, none⟩, ⟨some 1, some 0, some 10, none⟩,
              ⟨some 2, some 0, some 20, none⟩, ⟨some 3, some 0, some 30, none⟩] :
              List Point).length ∧
    1 + 2 < ([⟨some 0, some 0, some 0, none⟩, ⟨some 1, some 0, some 10, none⟩,
              ⟨some 2, some 0, some 20, none⟩, ⟨some 3, some 0, some 30, none⟩] :
              List Point).length :=
  ⟨(kinematic_index_bounds _ 1).1 (by norm_num)
      (by rw [strokeVelocities_length]; norm_num),
   (kinematic_index_bounds _ 1).2 (by norm_num)
      (by
        unfold strokeAccels
        rw [if_pos (by rw [strokeVelocities_length]; norm_num)]
        simp [strokeVelocities_length])⟩

/-- C10: a session mapping lacking `id`, `testType`, `createdAt` and
`data` yields exactly the three fallback metadata entries
(`session_id = "unknown"`, `test_type = "unknown"`, `created_at = 0`),
and whenever the `data` dict has no `strokes` entry the record's keys
are exactly the three metadata keys — no error, no stroke-derived
keys. -/
theorem metadata_fallbacks (s : Session) :
    (s.id = none → s.testType = none → s.createdAt = none → s.data = none →
      extractFeatures s = [("session_id", FValue.str "unknown"),
                           ("test_type", FValue.str "unknown"),
                           ("created_at", FValue.num 0)]) ∧
    ((s.data.getD ⟨none, none⟩).strokes = none →
      featureKeys s = ["session_id", "test_type", "created_at"]) := by
  constructor
  · intro h1 h2 h3 h4
    simp [extractFeatures, h1, h2, h3, h4]
  · intro h
    simp [featureKeys, extractFeatures, h]

/-- Witness for C10 at the empty session mapping. -/
theorem metadata_fallbacks_witness :
    extractFeatures ⟨none, none, none, none⟩ =
      [("session_id", FValue.str "unknown"),
       ("test_type", FValue.str "unknown"),
       ("created_at", FValue.num 0)] ∧
    featureKeys ⟨none, none, none, none⟩ = ["session_id", "test_type", "created_at"] :=
  ⟨(metadata_fallbacks ⟨none, none, none, none⟩).1 rfl rfl rfl rfl,
   (metadata_fallbacks ⟨none, none, none, none⟩).2 rfl⟩

/-- The keys that `DataLoader` can ever emit. -/
def recognizedKeys : List String :=
  ["session_id", "test_type", "created_at", "stroke_count", "total_points",
   "stroke_duration_mean", "stroke_duration_std", "total_drawing_time",
   "pressure_mean", "pressure_std", "pressure_min", "pressure_max"]

lemma computeStrokeFeatures_keys (strokes : List Stroke) :
    ∀ k ∈ (computeStrokeFeatures strokes).map Prod.fst, k ∈ recognizedKeys := by
  intro k hk
  unfold computeStrokeFeatures at hk
  by_cases hs : strokes = []
  · simp [hs] at hk
  · rw [if_neg hs] at hk
    simp only [List.map_append, List.mem_append] at hk
    rcases hk with (hk | hk) | hk
    · simp at hk
      rcases hk with h | h <;> simp [h, recognizedKeys]
    · rcases hd : decide (strokeDurations strokes = []) with _ | _
      · rw [if_neg (by simpa using hd)] at hk
        simp at hk
        rcases hk with h | h | h <;> simp [h, recognizedKeys]
      · rw [if_pos (by simpa using hd)] at hk
        simp at hk
    · rcases hp : decide (allPressures strokes = []) with _ | _
      · rw [if_neg (by simpa using hp)] at hk
        simp at hk
        rcases hk with h | h | h | h <;> simp [h, recognizedKeys]
      · rw [if_pos (by simpa using hp)] at hk
        simp at hk

/-- Counterexample to C1: for a session whose `data` holds an empty
stroke list, the aggregated record does not contain the recognized key
`stroke_count` (nor any extractor key) — the output key set is not
total. -/
theorem agg_total_keys_cex :
    "stroke_count" ∉
      featureKeys ⟨some "a", some "spiral", some 1, some ⟨some [], none⟩⟩ := by
  simp [featureKeys, extractFeatures, computeStrokeFeatures]

/-- C1 (amended): only the three metadata keys are unconditionally
present in the aggregated record; every emitted key belongs to the fixed
recognized list (which never includes the kinematic / spatial / temporal
extractor keys of `02_feature_engineering.py`). -/
theorem agg_keys (s : Session) :
    ("session_id" ∈ featureKeys s ∧ "test_type" ∈ featureKeys s ∧
     "created_at" ∈ featureKeys s) ∧
    ∀ k ∈ featureKeys s, k ∈ recognizedKeys := by
  unfold featureKeys extractFeatures
  rcases h : (s.data.getD ⟨none, none⟩).strokes with _ | strokes
  · refine ⟨⟨by simp, by simp, by simp⟩, ?_⟩
    intro k hk
    simp at hk
    rcases hk with h | h | h <;> simp [h, recognizedKeys]
  · refine ⟨⟨by simp, by simp, by simp⟩, ?_⟩
    intro k hk
    simp only [List.map_append, List.mem_append] at hk
    rcases hk with hk | hk
    · simp at hk
      rcases hk with h | h | h <;> simp [h, recognizedKeys]
    · exact computeStrokeFeatures_keys strokes k hk

/-- Witness for C1's amended theorem at a one-stroke session: the key
`stroke_count` it emits is among the recognized keys. -/
theorem agg_keys_witness :
    "stroke_count" ∈ recognizedKeys :=
  (agg_keys ⟨none, none, none, some ⟨some [⟨some [], some 0, some 1⟩], none⟩⟩).2
    "stroke_count"
    (by simp [featureKeys, extractFeatures, computeStrokeFeatures])

/-- Counterexample to C2: for a session with an empty stroke list the
record is not the union of the extractor defaults with zero counts — it
lacks `total_points` entirely. -/
theorem empty_strokes_cex :
    "total_points" ∉
      featureKeys ⟨some "s1", some "tremor", some 2,
                   some ⟨some [], some ⟨some 100, some 100⟩⟩⟩ := by
  simp [featureKeys, extractFeatures, computeStrokeFeatures]

/-- C2 (amended): for every session whose `data` carries an empty stroke
list, the aggregated record consists of exactly the three metadata
entries — `_compute_stroke_features` returns the empty dict, so no
stroke-derived key and no zero default is emitted. -/
theorem empty_strokes_record (s : Session) (d : SessionData)
    (hd : s.data = some d) (hs : d.strokes = some []) :
    extractFeatures s =
      [("session_id", FValue.str (s.id.getD "unknown")),
       ("test_type", FValue.str (s.testType.getD "unknown")),
       ("created_at", FValue.num ((s.createdAt.getD 0 : ℚ) : ℝ))] := by
  simp [extractFeatures, hd, hs, computeStrokeFeatures]

/-- Witness for C2's amended theorem at a concrete empty-stroke
session. -/
theorem empty_strokes_record_witness :
    extractFeatures ⟨some "s1", some "tremor", some 2,
                     some ⟨some [], some ⟨some 100, some 100⟩⟩⟩ =
      [("session_id", FValue.str "s1"),
       ("test_type", FValue.str "tremor"),
       ("created_at", FValue.num ((2 : ℚ) : ℝ))] :=
  empty_strokes_record _ ⟨some [], some ⟨some 100, some 100⟩⟩ rfl rfl

/-- Counterexample to C4: with a present-but-zero canvas width the
denominator `canvas_size.get('width', 1) * canvas_size.get('height', 1)`
is `0 * 500 = 0`, not 1, and the division produces a non-finite float
(modelled as `none`) — the coverage is not a finite value. -/
theorem coverage_zero_width_cex :
    (compute_spatial_features
        [⟨some [⟨some 1, some 1, some 0, none⟩, ⟨some 3, some 4, some 1, none⟩],
          some 0, some 1⟩]
        (some ⟨some 0, some 500⟩)).canvas_coverage = none := by
  unfold compute_spatial_features
  rw [if_neg (by simp), if_neg (by simp [allXY, strokePoints])]
  simp [pyDiv]

/-- C4 (amended): the denominator is taken as 1 only for an *absent*
canvas dimension; whenever neither dimension is present-and-zero, the
denominator is nonzero and `canvas_coverage` is the finite value
`bounding_box_area / (width.getD 1 * height.getD 1)`. -/
theorem coverage_guarded (strokes : List Stroke) (cs : CanvasSize)
    (hs : strokes ≠ []) (hp : allXY strokes ≠ [])
    (hw : cs.width ≠ some 0) (hh : cs.height ≠ some 0) :
    (compute_spatial_features strokes (some cs)).canvas_coverage =
      some ((compute_spatial_features strokes (some cs)).bounding_box_area /
            (cs.width.getD 1 * cs.height.getD 1)) := by
  have hw1 : cs.width.getD 1 ≠ 0 := by
    rcases h : cs.width with _ | a
    · norm_num
    · rw [h] at hw
      simpa using hw
  have hh1 : cs.height.getD 1 ≠ 0 := by
    rcases h : cs.height with _ | a
    · norm_num
    · rw [h] at hh
      simpa using hh
  unfold compute_spatial_features
  rw [if_neg (by simp [hs]), if_neg hp]
  simp [pyDiv, mul_ne_zero hw1 hh1]

/-- Witness for C4's amended theorem at a two-point stroke on a 500×500
canvas. -/
theorem coverage_guarded_witness :
    (compute_spatial_features
        [⟨some [⟨some 1, some 1, some 0, none⟩, ⟨some 3, some 4, some 1, none⟩],
          some 0, some 1⟩]
        (some ⟨some 500, some 500⟩)).canvas_coverage =
      some ((compute_spatial_features
        [⟨some [⟨some 1, some 1, some 0, none⟩, ⟨some 3, some 4, some 1, none⟩],
          some 0, some 1⟩]
        (some ⟨some 500, some 500⟩)).bounding_box_area /
          ((some (500 : ℚ)).getD 1 * (some (500 : ℚ)).getD 1)) :=
  coverage_guarded _ ⟨some 500, some 500⟩ (by simp)
    (by simp [allXY, strokePoints]) (by norm_num) (by norm_num)

/-! ## The §8 concrete scenario -/

/-- Scenario point (0,0) at t=0, pressure 0.5. -/
def pA : Point := ⟨some 0, some 0, some 0, some (1/2)⟩

/-- Scenario point (3,4) at t=100, pressure 0.5. -/
def pB : Point := ⟨some 3, some 4, some 100, some (1/2)⟩

/-- Scenario point (6,8) at t=200, pressure 0.5. -/
def pC : Point := ⟨some 6, some 8, some 200, some (1/2)⟩

/-- The scenario session's single stroke. -/
def scenarioStrokes : List Stroke := [⟨some [pA, pB, pC], some 0, some 200⟩]

/-- The scenario's 500×500 canvas. -/
def scenarioCanvas : CanvasSize := ⟨some 500, some 500⟩

lemma ptDist_AB : ptDist pA pB = 5 := by
  simp only [ptDist, pA, pB, Option.getD_some]
  rw [show (((3 : ℚ) - 0 : ℚ) : ℝ) ^ 2 + (((4 : ℚ) - 0 : ℚ) : ℝ) ^ 2 = 5 ^ 2 by
    push_cast; norm_num]
  exact Real.sqrt_sq (by norm_num)

lemma ptDist_BC : ptDist pB pC = 5 := by
  simp only [ptDist, pB, pC, Option.getD_some]
  rw [show (((6 : ℚ) - 3 : ℚ) : ℝ) ^ 2 + (((8 : ℚ) - 4 : ℚ) : ℝ) ^ 2 = 5 ^ 2 by
    push_cast; norm_num]
  exact Real.sqrt_sq (by norm_num)

lemma dtOf_AB : dtOf pA pB = 100 := by
  simp only [dtOf, ptTime, pA, pB, Option.getD_some]
  rw [max_eq_right (by norm_num : (1 : ℚ) ≤ 100 - 0)]
  norm_num

lemma dtOf_BC : dtOf pB pC = 100 := by
  simp only [dtOf, ptTime, pB, pC, Option.getD_some]
  rw [max_eq_right (by norm_num : (1 : ℚ) ≤ 200 - 100)]
  norm_num

lemma velStep_AB : velStep pA pB = 1 / 20 := by
  unfold velStep
  rw [dtOf_AB, if_pos (by norm_num : (0 : ℚ) < 100), ptDist_AB]
  norm_num

lemma velStep_BC : velStep pB pC = 1 / 20 := by
  unfold velStep
  rw [dtOf_BC, if_pos (by norm_num : (0 : ℚ) < 100), ptDist_BC]
  norm_num

lemma allVelocities_scenario :
    allVelocities scenarioStrokes = [velStep pA pB, velStep pB pC] := rfl

lemma allDists_scenario :
    allDists scenarioStrokes = [ptDist pA pB, ptDist pB pC] := rfl

lemma velocity_mean_scenario : velocity_mean scenarioStrokes = 1 / 20 := by
  unfold velocity_mean
  rw [allVelocities_scenario, if_neg (by simp), velStep_AB, velStep_BC]
  unfold rMean
  norm_num

lemma velocity_std_scenario : velocity_std scenarioStrokes = 0 := by
  unfold velocity_std
  rw [allVelocities_scenario, if_neg (by simp), velStep_AB, velStep_BC]
  unfold rStd rMean
  norm_num

lemma path_length_total_scenario : path_length_total scenarioStrokes = 10 := by
  unfold path_length_total
  rw [allDists_scenario, ptDist_AB, ptDist_BC]
  norm_num

lemma scenario_xs :
    (allXY scenarioStrokes).map Prod.fst = [0, 3, 6] := rfl

lemma scenario_ys :
    (allXY scenarioStrokes).map Prod.snd = [0, 4, 8] := rfl

lemma area_scenario :
    (compute_spatial_features scenarioStrokes (some scenarioCanvas)).bounding_box_area
      = 48 := by
  unfold compute_spatial_features
  rw [if_neg (by simp [scenarioStrokes]),
      if_neg (by simp [allXY, scenarioStrokes, strokePoints])]
  show (qListMax ((allXY scenarioStrokes).map Prod.fst) -
        qListMin ((allXY scenarioStrokes).map Prod.fst)) *
       (qListMax ((allXY scenarioStrokes).map Prod.snd) -
        qListMin ((allXY scenarioStrokes).map Prod.snd)) = 48
  rw [scenario_xs, scenario_ys]
  unfold qListMax qListMin
  simp only [List.foldl_cons, List.foldl_nil]
  rw [max_eq_right (by norm_num : (0 : ℚ) ≤ 3),
      max_eq_right (by norm_num : (3 : ℚ) ≤ 6),
      max_eq_right (by norm_num : (0 : ℚ) ≤ 4),
      max_eq_right (by norm_num : (4 : ℚ) ≤ 8),
      min_eq_left (by norm_num : (0 : ℚ) ≤ 3),
      min_eq_left (by norm_num : (0 : ℚ) ≤ 6),
      min_eq_left (by norm_num : (0 : ℚ) ≤ 4),
      min_eq_left (by norm_num : (0 : ℚ) ≤ 8)]
  norm_num

lemma center_offset_scenario :
    (compute_spatial_features scenarioStrokes (some scenarioCanvas)).center_offset_total
      = Real.sqrt (((3 : ℝ) - 250) ^ 2 + ((4 : ℝ) - 250) ^ 2) := by
  unfold compute_spatial_features
  rw [if_neg (by simp [scenarioStrokes]),
      if_neg (by simp [allXY, scenarioStrokes, strokePoints])]
  show Real.sqrt
      (((qMean ((allXY scenarioStrokes).map Prod.fst) -
          (some (500 : ℚ)).getD 0 / 2 : ℚ) : ℝ) ^ 2 +
       ((qMean ((allXY scenarioStrokes).map Prod.snd) -
          (some (500 : ℚ)).getD 0 / 2 : ℚ) : ℝ) ^ 2) = _
  rw [scenario_xs, scenario_ys]
  have h1 : qMean [(0 : ℚ), 3, 6] = 3 := by norm_num [qMean]
  have h2 : qMean [(0 : ℚ), 4, 8] = 4 := by norm_num [qMean]
  rw [h1, h2]
  simp only [Option.getD_some]
  congr 1
  push_cast
  norm_num

lemma allPressures_scenario :
    allPressures scenarioStrokes = [1 / 2, 1 / 2, 1 / 2] := rfl

lemma pressure_cv_scenario : pressure_cv scenarioStrokes = 0 := by
  have hne : allPressures scenarioStrokes ≠ [] := by
    rw [allPressures_scenario]
    simp
  have hall : ∀ q ∈ allPressures scenarioStrokes, q = 1 / 2 := by
    rw [allPressures_scenario]
    simp
  have hmean : pressure_mean scenarioStrokes = 1 / 2 := by
    unfold pressure_mean
    rw [if_neg hne]
    exact qMean_const _ _ hne hall
  have hstd : pressure_std scenarioStrokes = 0 := by
    unfold pressure_std
    rw [if_neg hne]
    exact qStd_const _ _ hne hall
  unfold pressure_cv
  rw [if_neg hne, if_pos (by rw [hmean]; norm_num), hstd]
  simp

/-- Counterexample to C3: the scenario's points (0,0), (3,4), (6,8) span
a 6 × 8 bounding box, so `bounding_box_area` is 48, not the 12 the claim
states. -/
theorem scenario_area_cex :
    (compute_spatial_features scenarioStrokes (some scenarioCanvas)).bounding_box_area
      ≠ 12 := by
  rw [area_scenario]
  norm_num

/-- C3 (amended): on the one-stroke scenario — points (0,0)@t=0,
(3,4)@t=100, (6,8)@t=200, constant pressure 0.5, 500×500 canvas — the
extractors return `velocity_mean = 0.05`, `velocity_std = 0`,
`path_length_total = 10`, `bounding_box_area = 48` (6 × 8, not 12),
`pressure_cv = 0`, and `center_offset_total` equal to the Euclidean
distance from the mean point (3,4) to the canvas center (250,250). -/
theorem scenario_features :
    velocity_mean scenarioStrokes = 0.05 ∧
    velocity_std scenarioStrokes = 0 ∧
    path_length_total scenarioStrokes = 10 ∧
    (compute_spatial_features scenarioStrokes (some scenarioCanvas)).bounding_box_area
      = 48 ∧
    pressure_cv scenarioStrokes = 0 ∧
    (compute_spatial_features scenarioStrokes (some scenarioCanvas)).center_offset_total
      = Real.sqrt (((3 : ℝ) - 250) ^ 2 + ((4 : ℝ) - 250) ^ 2) := by
  refine ⟨?_, velocity_std_scenario, path_length_total_scenario, area_scenario,
          pressure_cv_scenario, center_offset_scenario⟩
  rw [velocity_mean_scenario]
  norm_num
